import Mathlib

/-!
Verification of the bike-weather core logic (src/app.py): the forecast
classifier `analyze_biking_conditions`, the per-candidate evaluation
`check_city_weather`, the destination ranker `find_travel_destinations`,
and the drive-time rendering `estimate_drive_time`.

Numeric weather values (feels-like temperatures, distances) are modelled
as rationals.  The `datetime` conversions from the Unix timestamp to the
local date string, hour, weekday name and clock rendering are treated as
fields of the sample / an external `dayNameOf` collaborator, since the
classifier only ever consumes their results.
-/

namespace BikeWeather

/-- One entry of a forecast sample's `weather` array: the categorical
`main` condition and the free-text `description`. -/
structure WeatherCond where
  main : String
  description : String
deriving DecidableEq

/-- One hourly forecast sample (an `item` of `weather_data['list']`).
`dtDate`, `dtHour` and `dtTime` are the local calendar date (`'%Y-%m-%d'`),
hour and clock rendering (`'%I:%M %p'`) that `datetime.fromtimestamp`
derives from `item['dt']`.  `hasRainKey` / `hasSnowKey` record whether the
raw dict has a top-level `'rain'` / `'snow'` key (tested by
`'rain' in forecast` in the source). -/
structure Sample where
  dtDate : String
  dtHour : Nat
  dtTime : String
  feels_like : ℚ
  weather : List WeatherCond
  hasRainKey : Bool
  hasSnowKey : Bool
deriving DecidableEq

/-- Value of `CONFIG["MIN_TEMP_NO_PRECIP"]`. -/
def CONFIG_MIN_TEMP_NO_PRECIP : ℚ := 33

/-- Value of `CONFIG["MIN_TEMP_WITH_PRECIP"]`. -/
def CONFIG_MIN_TEMP_WITH_PRECIP : ℚ := 45

/-- Value of `CONFIG["RIDE_START_HOUR"]`. -/
def CONFIG_RIDE_START_HOUR : Nat := 6

/-- Value of `CONFIG["RIDE_END_HOUR"]`. -/
def CONFIG_RIDE_END_HOUR : Nat := 19

/-- Test `startsWithChars n h`: the char list `n` is an initial segment of `h`. -/
def startsWithChars : List Char → List Char → Bool
  | [], _ => true
  | _ :: _, [] => false
  | c :: cs, d :: ds => c == d && startsWithChars cs ds

/-- Test `hasSubChars n h`: the char list `n` occurs contiguously inside `h`. -/
def hasSubChars (n : List Char) : List Char → Bool
  | [] => n.isEmpty
  | d :: ds => startsWithChars n (d :: ds) || hasSubChars n ds

/-- Python's `needle in hay` on strings: contiguous substring test. -/
def strIn (needle hay : String) : Bool :=
  hasSubChars needle.data hay.data

/-- Python's `str.lower()` as applied to the ASCII condition texts
(character-wise lowering). -/
def pyLower (s : String) : String := ⟨s.data.map Char.toLower⟩

/-- Python `int(...)` applied to a (rational-modelled) float: truncation
toward zero. -/
def pyInt (q : ℚ) : ℤ := if q < 0 then q.ceil else q.floor

/-- Python 3 `round(...)` to an integer: round half to even. -/
def pyRound (q : ℚ) : ℤ :=
  let f := q.floor
  let r := q - (f : ℚ)
  if r < 1/2 then f
  else if (1 : ℚ)/2 < r then f + 1
  else if f % 2 = 0 then f else f + 1

/-- Python `max(...)` over a sequence of numbers.  The empty case (where
Python raises `ValueError`) is unreachable at every use site, which is
guarded by a positive count. -/
def pyMax : List ℚ → ℚ
  | [] => 0
  | q :: qs => qs.foldl max q

/-- Model of `estimate_drive_time` (src/app.py): distance over an assumed 50 mph,
rendered as hours and minutes with zero components omitted. -/
def estimate_drive_time (distance_miles : ℚ) : String :=
  let hours : ℚ := distance_miles / 50
  let h : ℤ := pyInt hours
  let m : ℤ := pyInt ((hours - (h : ℚ)) * 60)
  if h = 0 then s!"{m} min"
  else if m = 0 then s!"{h} hr"
  else s!"{h} hr {m} min"

/-- The rider preference arguments of `analyze_biking_conditions`,
with the source's default values. -/
structure Profile where
  min_temp_no_precip : ℚ := 33
  min_temp_with_precip : ℚ := 45
  ride_in_snow : Bool := false
deriving DecidableEq

/-- The decoded provider payload.  `none` at the outer `Option` models a
Python `None` (or otherwise falsy) payload; `list?` models presence of the
`'list'` key, so an empty dict `{}` is `some ⟨none⟩`. -/
structure WeatherData where
  list? : Option (List Sample)
deriving DecidableEq

/-- The samples carried by a payload (empty for malformed payloads). -/
def samplesOf : Option WeatherData → List Sample
  | some ⟨some items⟩ => items
  | _ => []

/-- Value `weather_main`: lowercased `main` of the first `weather` entry, or `''`
when the `weather` array is empty/falsy. -/
def weatherMain (s : Sample) : String :=
  match s.weather with
  | [] => ""
  | c :: _ => pyLower c.main

/-- Value `weather_desc`: `description` of the first `weather` entry, or `''`. -/
def weatherDesc (s : Sample) : String :=
  match s.weather with
  | [] => ""
  | c :: _ => c.description

/-- The sequential precipitation flagging of `analyze_biking_conditions`
(first rain/drizzle markers or a raw `'rain'` key set `(has_precip,
precip_type)` to rain, then snow markers or a raw `'snow'` key override
with snow). -/
def precipFlags (s : Sample) : Bool × Option String :=
  let wm := weatherMain s
  let st0 : Bool × Option String := (false, none)
  let st1 :=
    if strIn "rain" wm || strIn "drizzle" wm || s.hasRainKey then (true, some "rain") else st0
  if strIn "snow" wm || s.hasSnowKey then (true, some "snow") else st1

/-- One annotated in-window entry of a Day Judgment's `windows` list. -/
structure Window where
  time : String
  hour : Nat
  feels_like : ℤ
  has_precip : Bool
  precip_type : Option String
  weather : String
  is_suitable : Bool
deriving DecidableEq

/-- The window dict appended for one retained sample by
`analyze_biking_conditions`. -/
def mkWindow (p : Profile) (s : Sample) : Window :=
  let fl := s.feels_like
  let pf := precipFlags s
  let min_temp := if pf.1 then p.min_temp_with_precip else p.min_temp_no_precip
  let is_snow := pf.2 == some "snow"
  { time := s.dtTime
    hour := s.dtHour
    feels_like := pyRound fl
    has_precip := pf.1
    precip_type := pf.2
    weather := weatherDesc s
    is_suitable := decide (fl ≥ min_temp) && (!is_snow || p.ride_in_snow) }

/-- One Day Judgment of the classifier's output. -/
structure DayJudgment where
  date : String
  day_name : String
  windows : List Window
  has_suitable_time : Bool
  suitable_count : Nat
deriving DecidableEq

/-- The hour filter shared by both classifiers: a sample is dropped when
`hour < RIDE_START_HOUR or hour >= RIDE_END_HOUR`. -/
def inRideHours (h : Nat) : Bool :=
  !(decide (h < CONFIG_RIDE_START_HOUR) || decide (h ≥ CONFIG_RIDE_END_HOUR))

/-- Inserting one sample into the insertion-ordered `daily_forecasts`
association list (a Python dict keyed by the date string). -/
def insertSample (acc : List (String × List Sample)) (s : Sample) :
    List (String × List Sample) :=
  if acc.any (fun g => g.1 == s.dtDate) then
    acc.map (fun g => if g.1 == s.dtDate then (g.1, g.2 ++ [s]) else g)
  else
    acc ++ [(s.dtDate, [s])]

/-- Dict `daily_forecasts`: the samples grouped by date, keys in first-seen
order (Python dict insertion order). -/
def groupByDate (items : List Sample) : List (String × List Sample) :=
  items.foldl insertSample []

/-- Model of `analyze_biking_conditions` (src/app.py).  `dayNameOf` models
`strftime('%A')`, the weekday name the `datetime` library renders for a
date string. -/
def analyze_biking_conditions (dayNameOf : String → String)
    (weather_data : Option WeatherData) (p : Profile) : List DayJudgment :=
  match weather_data with
  | none => []
  | some wd =>
    match wd.list? with
    | none => []
    | some items =>
      let daily_forecasts := groupByDate items
      daily_forecasts.filterMap (fun g =>
        let day_windows := (g.2.filter (fun s => inRideHours s.dtHour)).map (mkWindow p)
        if day_windows.isEmpty then none
        else
          let suitable_count := (day_windows.filter (fun w => w.is_suitable)).length
          some { date := g.1
                 day_name := dayNameOf g.1
                 windows := day_windows
                 has_suitable_time := decide (suitable_count > 0)
                 suitable_count := suitable_count })

/-- One entry of the fixed candidate catalogs. -/
structure CityInfo where
  city : String
  state : String
  airport : Option String := none
  lat : ℚ
  lon : ℚ
deriving DecidableEq

/-- The per-day running summary held in `check_city_weather`'s
`daily_best` dict. -/
structure DailyBest where
  date : String
  day_name : String
  best_temp : ℚ
  has_suitable : Bool
deriving DecidableEq

/-- The per-sample suitability test hardcoded in `check_city_weather`:
fixed CONFIG thresholds, condition-text markers only, and an
unconditional snow veto. -/
def citySuitable (s : Sample) : Bool :=
  let wm := weatherMain s
  let has_precip := strIn "rain" wm || strIn "drizzle" wm || strIn "snow" wm
  let is_snow := strIn "snow" wm
  let min_temp := if has_precip then CONFIG_MIN_TEMP_WITH_PRECIP else CONFIG_MIN_TEMP_NO_PRECIP
  decide (s.feels_like ≥ min_temp) && !is_snow

/-- One step of `check_city_weather`'s loop over forecast items: skip
out-of-window hours, then create or update the day's `daily_best` entry
(the running max of `feels_like` and the or-accumulated suitability). -/
def updateDailyBest (dayNameOf : String → String)
    (acc : List (String × DailyBest)) (s : Sample) : List (String × DailyBest) :=
  if !inRideHours s.dtHour then acc
  else
    let fl := s.feels_like
    let suit := citySuitable s
    if acc.any (fun g => g.1 == s.dtDate) then
      acc.map (fun g =>
        if g.1 == s.dtDate then
          (g.1, { g.2 with
                  best_temp := if fl > g.2.best_temp then fl else g.2.best_temp
                  has_suitable := g.2.has_suitable || suit })
        else g)
    else
      acc ++ [(s.dtDate, { date := s.dtDate
                           day_name := dayNameOf s.dtDate
                           best_temp := fl
                           has_suitable := suit })]

/-- The result dict `check_city_weather` returns for a qualifying city. -/
structure DestResult where
  city : String
  state : String
  airport : Option String
  distance_miles : ℤ
  drive_time : String
  suitable_days : Nat
  best_temp : ℚ
deriving DecidableEq

/-- Model of `check_city_weather` (src/app.py).  `getForecast` models the external
provider `get_weather_forecast`; `dist` models the `math`-library
haversine `calculate_distance` (transcendental, hence a parameter);
`dayNameOf` models the weekday rendering. -/
def check_city_weather (getForecast : ℚ → ℚ → Option WeatherData)
    (dist : ℚ → ℚ → ℚ → ℚ → ℚ) (dayNameOf : String → String)
    (city_info : CityInfo) (home_lat home_lon : ℚ) : Option DestResult :=
  match getForecast city_info.lat city_info.lon with
  | none => none
  | some wd =>
    match wd.list? with
    | none => none
    | some items =>
      let daily_best := items.foldl (updateDailyBest dayNameOf) []
      let suitable_count := (daily_best.filter (fun g => g.2.has_suitable)).length
      if suitable_count > 0 then
        let distance := dist home_lat home_lon city_info.lat city_info.lon
        some { city := city_info.city
               state := city_info.state
               airport := city_info.airport
               distance_miles := pyRound distance
               drive_time := estimate_drive_time distance
               suitable_days := suitable_count
               best_temp :=
                 pyMax ((daily_best.filter (fun g => g.2.has_suitable)).map
                   (fun g => g.2.best_temp)) }
      else none

/-- Catalog `AIRPORT_CITIES`: the fixed flyable-tier entries. -/
def AIRPORT_CITIES : List CityInfo :=
  [ { city := "Philadelphia", state := "PA", airport := some "PHL", lat := 39.9526, lon := -75.1652 },
    { city := "Washington", state := "DC", airport := some "DCA", lat := 38.9072, lon := -77.0369 },
    { city := "Boston", state := "MA", airport := some "BOS", lat := 42.3601, lon := -71.0589 },
    { city := "Charlotte", state := "NC", airport := some "CLT", lat := 35.2271, lon := -80.8431 },
    { city := "Atlanta", state := "GA", airport := some "ATL", lat := 33.7490, lon := -84.3880 },
    { city := "Miami", state := "FL", airport := some "MIA", lat := 25.7617, lon := -80.1918 },
    { city := "Tampa", state := "FL", airport := some "TPA", lat := 27.9506, lon := -82.4572 },
    { city := "Orlando", state := "FL", airport := some "MCO", lat := 28.5383, lon := -81.3792 },
    { city := "Raleigh", state := "NC", airport := some "RDU", lat := 35.7796, lon := -78.6382 },
    { city := "Richmond", state := "VA", airport := some "RIC", lat := 37.5407, lon := -77.4360 } ]

/-- Catalog `DRIVEABLE_CITIES`: the fixed drivable-tier entries. -/
def DRIVEABLE_CITIES : List CityInfo :=
  [ { city := "Baltimore", state := "MD", lat := 39.2904, lon := -76.6122 },
    { city := "Annapolis", state := "MD", lat := 38.9784, lon := -76.4922 },
    { city := "Rehoboth Beach", state := "DE", lat := 38.7210, lon := -75.0760 },
    { city := "Cape May", state := "NJ", lat := 38.9351, lon := -74.9060 },
    { city := "Atlantic City", state := "NJ", lat := 39.3643, lon := -74.4229 },
    { city := "Lancaster", state := "PA", lat := 40.0379, lon := -76.3055 },
    { city := "Gettysburg", state := "PA", lat := 39.8309, lon := -77.2311 },
    { city := "Harrisburg", state := "PA", lat := 40.2732, lon := -76.8867 },
    { city := "Wilmington", state := "DE", lat := 39.7391, lon := -75.5398 },
    { city := "Norfolk", state := "VA", lat := 36.8508, lon := -76.2859 },
    { city := "Virginia Beach", state := "VA", lat := 36.8529, lon := -75.9780 },
    { city := "Charlottesville", state := "VA", lat := 38.0293, lon := -78.4767 },
    { city := "Asheville", state := "NC", lat := 35.5951, lon := -82.5515 },
    { city := "Outer Banks", state := "NC", lat := 35.9582, lon := -75.6201 },
    { city := "Myrtle Beach", state := "SC", lat := 33.6891, lon := -78.8867 },
    { city := "Charleston", state := "SC", lat := 32.7765, lon := -79.9311 },
    { city := "Savannah", state := "GA", lat := 32.0809, lon := -81.0912 },
    { city := "Providence", state := "RI", lat := 41.8240, lon := -71.4128 },
    { city := "Portland", state := "ME", lat := 43.6591, lon := -70.2568 },
    { city := "Burlington", state := "VT", lat := 44.4759, lon := -73.2121 } ]

/-- The `{'drive': ..., 'fly': ...}` result of `find_travel_destinations`. -/
structure TravelDestinations where
  drive : List DestResult
  fly : List DestResult
deriving DecidableEq

/-- The sort key comparison used by `find_travel_destinations`
(`key=lambda x: x['distance_miles']`, ascending). -/
def leDistance (a b : DestResult) : Bool :=
  decide (a.distance_miles ≤ b.distance_miles)

/-- Model of `find_travel_destinations` (src/app.py): evaluate every catalog entry
of both tiers, keep the qualifying ones, sort each tier by distance
(Python's stable `list.sort`, modelled by `mergeSort`) and truncate to the
closest 3.  The `time.sleep` pacing does not affect the computed value. -/
def find_travel_destinations (getForecast : ℚ → ℚ → Option WeatherData)
    (dist : ℚ → ℚ → ℚ → ℚ → ℚ) (dayNameOf : String → String)
    (home_lat home_lon : ℚ) : TravelDestinations :=
  let drive_destinations := DRIVEABLE_CITIES.filterMap
    (fun city => check_city_weather getForecast dist dayNameOf city home_lat home_lon)
  let fly_destinations := AIRPORT_CITIES.filterMap
    (fun city => check_city_weather getForecast dist dayNameOf city home_lat home_lon)
  { drive := (drive_destinations.mergeSort leDistance).take 3
    fly := (fly_destinations.mergeSort leDistance).take 3 }

/-! ### Bridging lemmas for the numeric helpers -/

theorem ratFloor_eq_floor (q : ℚ) : q.floor = ⌊q⌋ := by
  rw [Rat.floor_def', Rat.floor_def]

theorem pyInt_of_nonneg {q : ℚ} (h : 0 ≤ q) : pyInt q = ⌊q⌋ := by
  unfold pyInt
  rw [if_neg (not_lt.mpr h), ratFloor_eq_floor]

/-! ### The precipitation flags take exactly three values -/

theorem precipFlags_cases (s : Sample) :
    precipFlags s = (false, none) ∨ precipFlags s = (true, some "rain")
      ∨ precipFlags s = (true, some "snow") := by
  unfold precipFlags
  dsimp only
  split
  · exact Or.inr (Or.inr rfl)
  · split
    · exact Or.inr (Or.inl rfl)
    · exact Or.inl rfl

/-- Claim C2: a retained sample is suitable iff `feels_like ≥ threshold`
and (its precipitation is not snow or `allow_snow` holds), with the
threshold being `min_temp_with_precip` exactly when the precipitation is
rain or snow; consequently snow with `allow_snow = false` is always
unsuitable, and rain-flagged samples are judged against
`min_temp_with_precip`. -/
theorem sample_suitable_iff (p : Profile) (s : Sample) :
    ((mkWindow p s).is_suitable = true ↔
      (s.feels_like ≥
          (if (mkWindow p s).precip_type = some "rain" ∨ (mkWindow p s).precip_type = some "snow"
           then p.min_temp_with_precip else p.min_temp_no_precip)
        ∧ ((mkWindow p s).precip_type ≠ some "snow" ∨ p.ride_in_snow = true)))
    ∧ ((mkWindow p s).precip_type = some "snow" → p.ride_in_snow = false →
        (mkWindow p s).is_suitable = false)
    ∧ ((mkWindow p s).precip_type = some "rain" →
        ((mkWindow p s).is_suitable = true ↔ s.feels_like ≥ p.min_temp_with_precip)) := by
  rcases precipFlags_cases s with h | h | h <;>
    rcases hr : p.ride_in_snow <;>
      simp [mkWindow, h, hr, ge_iff_le]

/-- Claim C8: a `None` payload, an empty mapping (no `'list'` key) and a
payload whose `'list'` is the empty list all classify to the empty
sequence, with no exception (the embedding is a total function). -/
theorem malformed_input_empty (dayNameOf : String → String) (p : Profile) :
    analyze_biking_conditions dayNameOf none p = []
    ∧ analyze_biking_conditions dayNameOf (some { list? := none }) p = []
    ∧ analyze_biking_conditions dayNameOf (some { list? := some [] }) p = [] :=
  ⟨rfl, rfl, rfl⟩

/-- Claim C10: with no rain/drizzle/snow marker in the condition text, a
top-level `'snow'` key in the raw sample dict still classifies the sample
as snow precipitation, and a top-level `'rain'` key (without a snow key)
as rain precipitation. -/
theorem raw_key_precip (p : Profile) (s : Sample)
    (hrain : strIn "rain" (weatherMain s) = false)
    (hdriz : strIn "drizzle" (weatherMain s) = false)
    (hsnow : strIn "snow" (weatherMain s) = false) :
    (s.hasSnowKey = true →
      (mkWindow p s).has_precip = true ∧ (mkWindow p s).precip_type = some "snow")
    ∧ (s.hasRainKey = true → s.hasSnowKey = false →
      (mkWindow p s).has_precip = true ∧ (mkWindow p s).precip_type = some "rain") := by
  constructor
  · intro hk
    simp [mkWindow, precipFlags, hrain, hdriz, hsnow, hk]
  · intro hk hk'
    simp [mkWindow, precipFlags, hrain, hdriz, hsnow, hk, hk']

/-- A sample with a raw `'rain'` key and an empty `weather` array. -/
def rainKeySample : Sample :=
  { dtDate := "2026-02-08", dtHour := 12, dtTime := "12:00 PM", feels_like := 50,
    weather := [], hasRainKey := true, hasSnowKey := false }

/-- Witness for C10 at a concrete sample whose condition text is empty. -/
theorem raw_key_precip_witness :
    (mkWindow {} rainKeySample).has_precip = true
    ∧ (mkWindow {} rainKeySample).precip_type = some "rain" :=
  (raw_key_precip {} rainKeySample (by decide) (by decide) (by decide)).2 rfl rfl

/-- Rendering of `d / 50` hours as `"H hr M min"` with a zero hour or
minute component omitted, written from the spec's words for comparison
with the source's `estimate_drive_time`. -/
def driveTimeSpecRender (d : ℚ) : String :=
  let H : ℤ := ⌊d / 50⌋
  let M : ℤ := ⌊(d / 50 - (H : ℚ)) * 60⌋
  if H = 0 then s!"{M} min"
  else if M = 0 then s!"{H} hr"
  else s!"{H} hr {M} min"

/-- Claim C9: for every non-negative distance the drive-time estimate is
`d / 50` hours rendered as `"H hr M min"` with zero components omitted;
in particular 100 miles gives `"2 hr"`, 75 miles `"1 hr 30 min"` and
25 miles `"30 min"`. -/
theorem drive_time_matches_spec (d : ℚ) (hd : 0 ≤ d) :
    estimate_drive_time d = driveTimeSpecRender d
    ∧ estimate_drive_time 100 = "2 hr"
    ∧ estimate_drive_time 75 = "1 hr 30 min"
    ∧ estimate_drive_time 25 = "30 min" := by
  have main : ∀ x : ℚ, 0 ≤ x → estimate_drive_time x = driveTimeSpecRender x := by
    intro x hx
    unfold estimate_drive_time driveTimeSpecRender
    have h50 : (0 : ℚ) ≤ x / 50 := by positivity
    have h2 : (0 : ℚ) ≤ (x / 50 - (⌊x / 50⌋ : ℚ)) * 60 :=
      mul_nonneg (sub_nonneg.mpr (Int.floor_le _)) (by norm_num)
    simp only [pyInt_of_nonneg h50, pyInt_of_nonneg h2]
  refine ⟨main d hd, ?_, ?_, ?_⟩
  · rw [main 100 (by norm_num)]
    unfold driveTimeSpecRender
    have h1 : ⌊(100 : ℚ) / 50⌋ = 2 := by norm_num
    simp only [h1]
    have h2 : ⌊(((100 : ℚ) / 50) - ((2 : ℤ) : ℚ)) * 60⌋ = 0 := by
      have e : (((100 : ℚ) / 50) - ((2 : ℤ) : ℚ)) * 60 = 0 := by push_cast; ring
      rw [e, Int.floor_zero]
    simp only [h2]
    decide
  · rw [main 75 (by norm_num)]
    unfold driveTimeSpecRender
    have h1 : ⌊(75 : ℚ) / 50⌋ = 1 := by
      have e : ((75 : ℚ) / 50) = 3 / 2 := by norm_num
      rw [e, Int.floor_eq_iff]; norm_num
    simp only [h1]
    have h2 : ⌊(((75 : ℚ) / 50) - ((1 : ℤ) : ℚ)) * 60⌋ = 30 := by
      have e : (((75 : ℚ) / 50) - ((1 : ℤ) : ℚ)) * 60 = 30 := by push_cast; ring
      rw [e]
      norm_num
    simp only [h2]
    decide
  · rw [main 25 (by norm_num)]
    unfold driveTimeSpecRender
    have h1 : ⌊(25 : ℚ) / 50⌋ = 0 := by
      have e : ((25 : ℚ) / 50) = 1 / 2 := by norm_num
      rw [e, Int.floor_eq_iff]; norm_num
    simp only [h1]
    have h2 : ⌊(((25 : ℚ) / 50) - ((0 : ℤ) : ℚ)) * 60⌋ = 30 := by
      have e : (((25 : ℚ) / 50) - ((0 : ℤ) : ℚ)) * 60 = 30 := by push_cast; ring
      rw [e]
      norm_num
    simp only [h2]
    decide

/-- Witness for C9 at `d = 75`. -/
theorem drive_time_matches_spec_witness :
    estimate_drive_time 75 = driveTimeSpecRender 75 :=
  (drive_time_matches_spec 75 (by norm_num)).1

/-! ### Machinery for the insertion-ordered dict folds

Both Python loops build a dict keyed by date string through the same
insert-or-update shape; `upsert` captures it generically, and the lemmas
below characterise the keys (first-seen order, no duplicates) and the
per-key values of such folds. -/

section AssocFold

variable {β : Type}

/-- Generic insert-or-update step on an insertion-ordered association
list, the shape shared by the two dict-building loops of the source. -/
def upsert (key : Sample → String) (ini : Sample → β) (upd : β → Sample → β)
    (acc : List (String × β)) (s : Sample) : List (String × β) :=
  if acc.any (fun g => g.1 == key s) then
    acc.map (fun g => if g.1 == key s then (g.1, upd g.2 s) else g)
  else
    acc ++ [(key s, ini s)]

/-- The value stored under a key. -/
def lookupKey (acc : List (String × β)) (d : String) : Option β :=
  (acc.find? (fun g => g.1 == d)).map (fun g => g.2)

/-- One-step absorption of a sample into an optional per-key summary. -/
def absorb (ini : Sample → β) (upd : β → Sample → β) :
    Option β → Sample → Option β
  | none, s => some (ini s)
  | some b, s => some (upd b s)

/-- The key list produced by a dict-building fold: first-seen order. -/
def dedupKeys (key : Sample → String) (l : List Sample) (ks : List String) : List String :=
  l.foldl (fun ks s => if ks.any (fun k => k == key s) then ks else ks ++ [key s]) ks

theorem lookupKey_cons (g : String × β) (acc : List (String × β)) (d : String) :
    lookupKey (g :: acc) d = if g.1 = d then some g.2 else lookupKey acc d := by
  by_cases h : g.1 = d <;> simp [lookupKey, List.find?_cons, h]

theorem lookupKey_eq_none (acc : List (String × β)) (d : String) :
    lookupKey acc d = none ↔ d ∉ acc.map Prod.fst := by
  induction acc with
  | nil => simp [lookupKey]
  | cons g acc ih =>
    rw [lookupKey_cons]
    by_cases h : g.1 = d
    · subst h
      simp
    · simp [h, ih, Ne.symm h]

theorem any_key_eq (acc : List (String × β)) (k : String) :
    acc.any (fun g => g.1 == k) = (lookupKey acc k).isSome := by
  induction acc with
  | nil => rfl
  | cons g acc ih =>
    rw [List.any_cons, lookupKey_cons]
    by_cases h : g.1 = k <;> simp [h, ih]

theorem lookupKey_append_single (acc : List (String × β)) (k : String) (b : β) (d : String) :
    lookupKey (acc ++ [(k, b)]) d =
      match lookupKey acc d with
      | some v => some v
      | none => if k = d then some b else none := by
  induction acc with
  | nil =>
    rw [List.nil_append, lookupKey_cons]
    by_cases h : k = d <;> simp [h, lookupKey]
  | cons g acc ih =>
    rw [List.cons_append, lookupKey_cons, lookupKey_cons]
    by_cases h : g.1 = d <;> simp [h, ih]

theorem lookupKey_map_update (acc : List (String × β)) (k : String)
    (f : β → β) (d : String) :
    lookupKey (acc.map (fun g => if g.1 == k then (g.1, f g.2) else g)) d =
      if d = k then (lookupKey acc d).map f else lookupKey acc d := by
  induction acc with
  | nil => by_cases h : d = k <;> simp [lookupKey, h]
  | cons g acc ih =>
    rw [List.map_cons]
    by_cases hk : g.1 = k <;> by_cases hd : g.1 = d
    · have hdk : d = k := by rw [← hd, hk]
      subst hdk
      rw [if_pos (by simp [hk]), lookupKey_cons, lookupKey_cons]
      simp [hd]
    · have hdk : d ≠ k := fun h => hd (by rw [hk, ← h])
      rw [if_pos (by simp [hk]), lookupKey_cons, lookupKey_cons]
      rw [if_neg hdk] at ih
      simpa [hd, hdk] using ih
    · have hdk : d ≠ k := fun h => hk (by rw [hd, h])
      rw [if_neg (by simp [hk]), lookupKey_cons, lookupKey_cons]
      simp [hd, hdk]
    · rw [if_neg (by simp [hk]), lookupKey_cons, lookupKey_cons]
      simpa [hd] using ih

theorem lookupKey_upsert (key : Sample → String) (ini : Sample → β)
    (upd : β → Sample → β) (acc : List (String × β)) (s : Sample) (d : String) :
    lookupKey (upsert key ini upd acc s) d =
      if d = key s then absorb ini upd (lookupKey acc d) s
      else lookupKey acc d := by
  unfold upsert
  cases hany : acc.any (fun g => g.1 == key s)
  · rw [if_neg (by simp [hany]), lookupKey_append_single]
    rw [any_key_eq] at hany
    have hnone : lookupKey acc (key s) = none :=
      Option.not_isSome_iff_eq_none.mp (by simp [hany])
    by_cases hd : d = key s
    · subst hd
      rw [hnone]
      simp [absorb]
    · rw [if_neg hd]
      cases hlk : lookupKey acc d
      · show (if key s = d then some (ini s) else none) = none
        rw [if_neg (fun h => hd h.symm)]
      · rfl
  · rw [if_pos (by simp [hany]),
        lookupKey_map_update acc (key s) (fun b => upd b s) d]
    rw [any_key_eq] at hany
    by_cases hd : d = key s
    · subst hd
      obtain ⟨b, hb⟩ := Option.isSome_iff_exists.mp hany
      rw [if_pos rfl, if_pos rfl, hb]
      simp [absorb]
    · rw [if_neg hd, if_neg hd]

theorem lookupKey_foldl_upsert (key : Sample → String) (ini : Sample → β)
    (upd : β → Sample → β) (l : List Sample) (acc : List (String × β)) (d : String) :
    lookupKey (l.foldl (upsert key ini upd) acc) d =
      (l.filter (fun s => key s == d)).foldl (absorb ini upd) (lookupKey acc d) := by
  induction l generalizing acc with
  | nil => rfl
  | cons s l ih =>
    rw [List.foldl_cons, ih, List.filter_cons]
    by_cases hk : key s = d
    · rw [if_pos (by simp [hk]), List.foldl_cons, lookupKey_upsert, if_pos hk.symm]
    · rw [if_neg (by simp [hk]), lookupKey_upsert, if_neg (fun h => hk h.symm)]

theorem keys_upsert (key : Sample → String) (ini : Sample → β)
    (upd : β → Sample → β) (acc : List (String × β)) (s : Sample) :
    (upsert key ini upd acc s).map Prod.fst =
      if acc.any (fun g => g.1 == key s) then acc.map Prod.fst
      else acc.map Prod.fst ++ [key s] := by
  unfold upsert
  cases hany : acc.any (fun g => g.1 == key s)
  · simp
  · rw [if_pos rfl, if_pos rfl, List.map_map]
    apply List.map_congr_left
    intro g _
    by_cases hg : g.1 = key s <;> simp [hg]

theorem keys_foldl_upsert (key : Sample → String) (ini : Sample → β)
    (upd : β → Sample → β) (l : List Sample) (acc : List (String × β)) :
    (l.foldl (upsert key ini upd) acc).map Prod.fst =
      dedupKeys key l (acc.map Prod.fst) := by
  induction l generalizing acc with
  | nil => rfl
  | cons s l ih =>
    have hany : ∀ acc2 : List (String × β), ((acc2.map Prod.fst).any (fun k => k == key s))
        = acc2.any (fun g => g.1 == key s) := by
      intro acc2
      induction acc2 with
      | nil => rfl
      | cons g acc2 ih2 => simp [ih2]
    have hstep : dedupKeys key (s :: l) (acc.map Prod.fst)
        = dedupKeys key l (if (acc.map Prod.fst).any (fun k => k == key s)
            then acc.map Prod.fst else acc.map Prod.fst ++ [key s]) := rfl
    rw [List.foldl_cons, ih, hstep, hany acc, keys_upsert]

theorem mem_dedupKeys (key : Sample → String) (l : List Sample)
    (ks : List String) (d : String) :
    d ∈ dedupKeys key l ks ↔ d ∈ ks ∨ ∃ s ∈ l, key s = d := by
  induction l generalizing ks with
  | nil => simp [dedupKeys]
  | cons s l ih =>
    have hstep : dedupKeys key (s :: l) ks
        = dedupKeys key l (if ks.any (fun k => k == key s) then ks else ks ++ [key s]) := rfl
    rw [hstep]
    by_cases h : (ks.any (fun k => k == key s)) = true
    · rw [if_pos h, ih]
      simp only [List.any_eq_true, beq_iff_eq] at h
      obtain ⟨k, hk, rfl⟩ := h
      constructor
      · rintro (hd | ⟨t, ht, rfl⟩)
        · exact Or.inl hd
        · exact Or.inr ⟨t, List.mem_cons_of_mem _ ht, rfl⟩
      · rintro (hd | ⟨t, ht, rfl⟩)
        · exact Or.inl hd
        · rcases List.mem_cons.mp ht with rfl | ht'
          · exact Or.inl hk
          · exact Or.inr ⟨t, ht', rfl⟩
    · rw [if_neg h, ih]
      constructor
      · rintro (hmem | ⟨t, ht, rfl⟩)
        · rcases List.mem_append.mp hmem with hks | hsing
          · exact Or.inl hks
          · exact Or.inr ⟨s, List.mem_cons_self _ _, (List.mem_singleton.mp hsing).symm⟩
        · exact Or.inr ⟨t, List.mem_cons_of_mem _ ht, rfl⟩
      · rintro (hks | ⟨t, ht, rfl⟩)
        · exact Or.inl (List.mem_append_left _ hks)
        · rcases List.mem_cons.mp ht with rfl | ht2
          · exact Or.inl (List.mem_append_right _ (List.mem_singleton.mpr rfl))
          · exact Or.inr ⟨t, ht2, rfl⟩

theorem nodup_dedupKeys (key : Sample → String) (l : List Sample)
    (ks : List String) (h : ks.Nodup) : (dedupKeys key l ks).Nodup := by
  induction l generalizing ks with
  | nil => exact h
  | cons s l ih =>
    have hstep : dedupKeys key (s :: l) ks
        = dedupKeys key l (if ks.any (fun k => k == key s) then ks else ks ++ [key s]) := rfl
    rw [hstep]
    by_cases hany : (ks.any (fun k => k == key s)) = true
    · rw [if_pos hany]
      exact ih ks h
    · rw [if_neg hany]
      refine ih _ ?_
      rw [List.nodup_append]
      refine ⟨h, List.nodup_singleton _, ?_⟩
      intro k hk hk'
      rw [List.mem_singleton] at hk'
      subst hk'
      exact hany (List.any_eq_true.mpr ⟨key s, hk, by simp⟩)

theorem lookupKey_mem (acc : List (String × β)) (h : (acc.map Prod.fst).Nodup)
    (d : String) (b : β) : (d, b) ∈ acc ↔ lookupKey acc d = some b := by
  induction acc with
  | nil => simp [lookupKey]
  | cons g acc ih =>
    obtain ⟨k, v⟩ := g
    rw [List.map_cons, List.nodup_cons] at h
    rw [List.mem_cons, lookupKey_cons]
    by_cases hg : k = d
    · subst hg
      rw [if_pos rfl]
      constructor
      · rintro (heq | hmem)
        · rw [Prod.mk.injEq] at heq
          rw [heq.2]
        · exact absurd (List.mem_map_of_mem Prod.fst hmem) h.1
      · intro hb
        rw [Option.some_inj] at hb
        subst hb
        exact Or.inl rfl
    · rw [if_neg (show (k, v).1 ≠ d from hg), ih h.2]
      constructor
      · rintro (heq | hmem)
        · rw [Prod.mk.injEq] at heq
          exact absurd heq.1.symm hg
        · exact hmem
      · exact fun hmem => Or.inr hmem

theorem filter_key_eq (acc : List (String × β)) (h : (acc.map Prod.fst).Nodup)
    (d : String) :
    acc.filter (fun g => g.1 == d) =
      match lookupKey acc d with
      | none => []
      | some b => [(d, b)] := by
  induction acc with
  | nil => rfl
  | cons g acc ih =>
    obtain ⟨k, v⟩ := g
    rw [List.map_cons, List.nodup_cons] at h
    rw [List.filter_cons, lookupKey_cons]
    by_cases hg : k = d
    · subst hg
      rw [if_pos (by simp), if_pos rfl]
      have hnone : lookupKey acc k = none := (lookupKey_eq_none acc k).mpr h.1
      rw [ih h.2, hnone]
    · rw [if_neg (by simp [hg]), if_neg (show (k, v).1 ≠ d from hg), ih h.2]

theorem assoc_eq_map_keys (acc : List (String × β)) (h : (acc.map Prod.fst).Nodup)
    (f : String → β) (hf : ∀ g ∈ acc, g.2 = f g.1) :
    acc = (acc.map Prod.fst).map (fun d => (d, f d)) := by
  induction acc with
  | nil => rfl
  | cons g acc ih =>
    obtain ⟨k, v⟩ := g
    rw [List.map_cons, List.nodup_cons] at h
    rw [List.map_cons, List.map_cons]
    have hg := hf (k, v) (List.mem_cons_self _ _)
    dsimp only at hg
    rw [hg]
    exact congrArg _ (ih h.2 fun g' hg' => hf g' (List.mem_cons_of_mem _ hg'))

end AssocFold

/-! ### Content of the date grouping -/

theorem insertSample_eq_upsert :
    insertSample = upsert (fun s => s.dtDate) (fun s => [s]) (fun fs s => fs ++ [s]) := rfl

theorem absorbGroup_foldl (fs ss : List Sample) :
    ss.foldl (absorb (fun s => [s]) (fun fs s => fs ++ [s])) (some fs) = some (fs ++ ss) := by
  induction ss generalizing fs with
  | nil => simp
  | cons s ss ih =>
    rw [List.foldl_cons]
    show ss.foldl _ (some (fs ++ [s])) = _
    rw [ih]
    simp

theorem absorbGroup_none (ss : List Sample) :
    ss.foldl (absorb (fun s => [s]) (fun fs s => fs ++ [s])) none =
      match ss with
      | [] => none
      | s :: rest => some (s :: rest) := by
  cases ss with
  | nil => rfl
  | cons s rest =>
    rw [List.foldl_cons]
    show rest.foldl _ (some [s]) = _
    rw [absorbGroup_foldl]
    rfl

theorem lookupKey_groupByDate (items : List Sample) (d : String) :
    lookupKey (groupByDate items) d =
      match items.filter (fun s => s.dtDate == d) with
      | [] => none
      | s :: rest => some (s :: rest) := by
  have h := lookupKey_foldl_upsert (fun s => s.dtDate) (fun s => [s]) (fun fs s => fs ++ [s])
      items [] d
  rw [groupByDate, insertSample_eq_upsert, h]
  exact absorbGroup_none _

theorem groupByDate_keys (items : List Sample) :
    (groupByDate items).map Prod.fst = dedupKeys (fun s => s.dtDate) items [] := by
  rw [groupByDate, insertSample_eq_upsert]
  exact keys_foldl_upsert _ _ _ items []

theorem groupByDate_keys_nodup (items : List Sample) :
    ((groupByDate items).map Prod.fst).Nodup := by
  rw [groupByDate_keys]
  exact nodup_dedupKeys _ _ _ List.nodup_nil

theorem groupByDate_mem (items : List Sample) (d : String) (fs : List Sample)
    (h : (d, fs) ∈ groupByDate items) :
    fs = items.filter (fun s => s.dtDate == d) ∧ fs ≠ [] := by
  have hl := (lookupKey_mem _ (groupByDate_keys_nodup items) d fs).mp h
  rw [lookupKey_groupByDate] at hl
  cases hfil : items.filter (fun s => s.dtDate == d) with
  | nil =>
    rw [hfil] at hl
    cases hl
  | cons s rest =>
    rw [hfil] at hl
    injection hl with hl2
    subst hl2
    exact ⟨rfl, by simp⟩

/-- The per-group judgment builder of the classifier's second loop, named
for the proofs. -/
def judgeGroup (dayNameOf : String → String) (p : Profile)
    (g : String × List Sample) : Option DayJudgment :=
  if (((g.2.filter (fun s => inRideHours s.dtHour)).map (mkWindow p)).isEmpty) then none
  else
    some { date := g.1
           day_name := dayNameOf g.1
           windows := (g.2.filter (fun s => inRideHours s.dtHour)).map (mkWindow p)
           has_suitable_time := decide
             ((((g.2.filter (fun s => inRideHours s.dtHour)).map (mkWindow p)).filter
                 (fun w => w.is_suitable)).length > 0)
           suitable_count :=
             (((g.2.filter (fun s => inRideHours s.dtHour)).map (mkWindow p)).filter
                 (fun w => w.is_suitable)).length }

/-- The classifier on a well-formed payload, as a `filterMap` over the
date groups. -/
theorem analyze_eq (dayNameOf : String → String) (items : List Sample) (p : Profile) :
    analyze_biking_conditions dayNameOf (some ⟨some items⟩) p =
      (groupByDate items).filterMap (judgeGroup dayNameOf p) := rfl

theorem inRideHours_iff (h : Nat) :
    inRideHours h = true ↔ CONFIG_RIDE_START_HOUR ≤ h ∧ h < CONFIG_RIDE_END_HOUR := by
  unfold inRideHours CONFIG_RIDE_START_HOUR CONFIG_RIDE_END_HOUR
  simp

/-- Claim C5: a judgment's window list and suitable tally are computed
from exactly the in-window samples of its date: out-of-hours samples
appear in no window list and count toward no tally, and every listed
window's hour lies in `[RIDE_START_HOUR, RIDE_END_HOUR)`. -/
theorem out_of_hours_excluded (dayNameOf : String → String) (items : List Sample)
    (p : Profile) :
    ∀ j ∈ analyze_biking_conditions dayNameOf (some ⟨some items⟩) p,
      j.windows = (items.filter
          (fun s => inRideHours s.dtHour && s.dtDate == j.date)).map (mkWindow p)
      ∧ j.suitable_count = ((items.filter
          (fun s => inRideHours s.dtHour && s.dtDate == j.date)).filter
            (fun s => (mkWindow p s).is_suitable)).length
      ∧ ∀ w ∈ j.windows, CONFIG_RIDE_START_HOUR ≤ w.hour ∧ w.hour < CONFIG_RIDE_END_HOUR := by
  intro j hj
  rw [analyze_eq] at hj
  obtain ⟨g, hg, hjg⟩ := List.mem_filterMap.mp hj
  obtain ⟨d, fs⟩ := g
  obtain ⟨hfs, -⟩ := groupByDate_mem items d fs hg
  subst hfs
  simp only [judgeGroup] at hjg
  by_cases hemp : (((items.filter (fun s => s.dtDate == d)).filter
      (fun s => inRideHours s.dtHour)).map (mkWindow p)).isEmpty
  · rw [if_pos hemp] at hjg
    cases hjg
  · rw [if_neg hemp] at hjg
    injection hjg with hjg
    subst hjg
    have hww : ((items.filter (fun s => s.dtDate == d)).filter
        (fun s => inRideHours s.dtHour)) = items.filter
          (fun s => inRideHours s.dtHour && s.dtDate == d) := by
      rw [List.filter_filter]
    refine ⟨by rw [hww], ?_, ?_⟩
    · show ((((items.filter (fun s => s.dtDate == d)).filter
          (fun s => inRideHours s.dtHour)).map (mkWindow p)).filter
            (fun w => w.is_suitable)).length = _
      rw [List.filter_map, List.length_map, hww]
      rfl
    · intro w hw
      have hw2 : w ∈ ((items.filter (fun s => s.dtDate == d)).filter
          (fun s => inRideHours s.dtHour)).map (mkWindow p) := hw
      obtain ⟨s, hs, rfl⟩ := List.mem_map.mp hw2
      have h2 := (List.mem_filter.mp hs).2
      exact (inRideHours_iff s.dtHour).mp h2

/-- A sample whose weather is clear, at noon. -/
def clearSample : Sample :=
  { dtDate := "2026-02-08", dtHour := 12, dtTime := "12:00 PM", feels_like := 50,
    weather := [{ main := "Clear", description := "clear sky" }],
    hasRainKey := false, hasSnowKey := false }

/-- A snow-conditions variant of `clearSample`. -/
def snowSample : Sample :=
  { clearSample with weather := [{ main := "Snow", description := "light snow" }] }

/-- Witness for C2: the snow veto fires on a concrete snow sample with a
default (snow-disallowing) profile. -/
theorem sample_suitable_iff_witness : (mkWindow {} snowSample).is_suitable = false :=
  (sample_suitable_iff {} snowSample).2.1 rfl rfl

/-- Witness judgment for C5, taken from a concrete one-sample run. -/
def c5judgment : DayJudgment :=
  (analyze_biking_conditions id (some ⟨some [clearSample]⟩) {}).headD
    { date := "", day_name := "", windows := [], has_suitable_time := false,
      suitable_count := 0 }

/-- Witness for C5 at a concrete one-sample forecast. -/
theorem out_of_hours_excluded_witness :
    c5judgment.windows = ([clearSample].filter
        (fun s => inRideHours s.dtHour && s.dtDate == c5judgment.date)).map (mkWindow {})
    ∧ c5judgment.suitable_count = (([clearSample].filter
        (fun s => inRideHours s.dtHour && s.dtDate == c5judgment.date)).filter
          (fun s => (mkWindow {} s).is_suitable)).length
    ∧ ∀ w ∈ c5judgment.windows,
        CONFIG_RIDE_START_HOUR ≤ w.hour ∧ w.hour < CONFIG_RIDE_END_HOUR :=
  out_of_hours_excluded id [clearSample] {} c5judgment (List.mem_cons_self _ _)

/-! ### Output order of the judgments -/

theorem map_date_filterMap {α : Type} (f : α → Option DayJudgment) (key : α → String)
    (c : α → Bool) (l : List α)
    (hnone : ∀ a, c a = false → f a = none)
    (hsome : ∀ a, c a = true → ∃ j, f a = some j ∧ j.date = key a) :
    (l.filterMap f).map (fun j => j.date) = (l.filter c).map key := by
  induction l with
  | nil => rfl
  | cons a l ih =>
    rw [List.filter_cons]
    cases h : c a
    · rw [List.filterMap_cons_none (hnone a h), if_neg (by simp)]
      exact ih
    · obtain ⟨j, hj, hjd⟩ := hsome a h
      rw [List.filterMap_cons_some hj, if_pos rfl]
      rw [List.map_cons, List.map_cons, ih, hjd]

theorem windows_isEmpty_eq (p : Profile) (l : List Sample) :
    ((l.filter (fun s => inRideHours s.dtHour)).map (mkWindow p)).isEmpty
      = !(l.any (fun s => inRideHours s.dtHour)) := by
  cases h : l.any (fun s => inRideHours s.dtHour)
  · have hnil : l.filter (fun s => inRideHours s.dtHour) = [] := by
      rw [List.filter_eq_nil_iff]
      intro s hs hp
      rw [List.any_eq_false] at h
      exact h s hs hp
    rw [hnil]
    rfl
  · obtain ⟨s, hs, hps⟩ := List.any_eq_true.mp h
    have hmem : mkWindow p s ∈ (l.filter (fun s => inRideHours s.dtHour)).map (mkWindow p) :=
      List.mem_map_of_mem _ (List.mem_filter.mpr ⟨hs, hps⟩)
    cases hfil : (l.filter (fun s => inRideHours s.dtHour)).map (mkWindow p)
    · rw [hfil] at hmem
      cases hmem
    · rfl

/-- First-seen order of the input's sample dates: the spec's description
of the output order (insertion order of each date's first-seen sample). -/
def firstSeenDateOrder (items : List Sample) : List String :=
  items.foldl (fun ds s => if ds.any (fun k => k == s.dtDate) then ds else ds ++ [s.dtDate]) []

theorem firstSeenDateOrder_eq (items : List Sample) :
    firstSeenDateOrder items = dedupKeys (fun s => s.dtDate) items [] := rfl

/-- Claim C7: the classifier's judgments appear in insertion order of
each date's first-seen sample, filtered to the dates with a retained
sample — not re-sorted independently. -/
theorem judgments_in_first_seen_order (dayNameOf : String → String)
    (items : List Sample) (p : Profile) :
    (analyze_biking_conditions dayNameOf (some ⟨some items⟩) p).map (fun j => j.date)
      = (firstSeenDateOrder items).filter
          (fun d => items.any (fun s => s.dtDate == d && inRideHours s.dtHour)) := by
  rw [analyze_eq]
  rw [map_date_filterMap (judgeGroup dayNameOf p) Prod.fst
      (fun g => g.2.any (fun s => inRideHours s.dtHour)) (groupByDate items)
      ?hnone ?hsome]
  case hnone =>
    intro g h
    have h2 : g.2.any (fun s => inRideHours s.dtHour) = false := h
    unfold judgeGroup
    rw [if_pos (by rw [windows_isEmpty_eq, h2]; rfl)]
  case hsome =>
    intro g h
    have h2 : g.2.any (fun s => inRideHours s.dtHour) = true := h
    exact ⟨_, by unfold judgeGroup; rw [if_neg (by rw [windows_isEmpty_eq, h2]; simp)], rfl⟩
  have hc : ∀ g ∈ groupByDate items,
      (g.2.any (fun s => inRideHours s.dtHour))
        = (fun d => items.any (fun s => s.dtDate == d && inRideHours s.dtHour)) g.1 := by
    rintro ⟨d, fs⟩ hg
    obtain ⟨hfs, -⟩ := groupByDate_mem items d fs hg
    subst hfs
    rw [List.any_filter]
  rw [List.filter_congr hc, firstSeenDateOrder_eq, ← groupByDate_keys, List.filter_map]
  rfl

/-! ### One judgment per date group -/

theorem filterMap_filter_comm {α γ : Type} (f : α → Option γ) (q : γ → Bool)
    (c : α → Bool) (l : List α)
    (hcomp : ∀ a b, f a = some b → q b = c a) :
    (l.filterMap f).filter q = (l.filter c).filterMap f := by
  induction l with
  | nil => rfl
  | cons a l ih =>
    cases hfa : f a with
    | none =>
      rw [List.filterMap_cons_none hfa, List.filter_cons]
      cases h : c a
      · rw [if_neg (by simp)]
        exact ih
      · rw [if_pos rfl, List.filterMap_cons_none hfa]
        exact ih
    | some b =>
      rw [List.filterMap_cons_some hfa, List.filter_cons, List.filter_cons]
      have hqb := hcomp a b hfa
      cases h : c a
      · rw [if_neg (by rw [hqb, h]; simp), if_neg (by simp)]
        exact ih
      · rw [if_pos (by rw [hqb, h]), if_pos rfl,
            List.filterMap_cons_some hfa, ih]

/-- Claim C6: a date group with no retained sample produces no Day
Judgment at all, and one with at least one retained sample produces
exactly one, whose `has_suitable_time` equals `suitable_count > 0`. -/
theorem day_judgment_per_group (dayNameOf : String → String) (items : List Sample)
    (p : Profile) (d : String) :
    (((items.filter (fun s => s.dtDate == d)).filter (fun s => inRideHours s.dtHour)) = [] →
      (analyze_biking_conditions dayNameOf (some ⟨some items⟩) p).filter
        (fun j => j.date == d) = [])
    ∧ (((items.filter (fun s => s.dtDate == d)).filter (fun s => inRideHours s.dtHour)) ≠ [] →
      ∃ j, (analyze_biking_conditions dayNameOf (some ⟨some items⟩) p).filter
          (fun j => j.date == d) = [j]
        ∧ j.has_suitable_time = decide (0 < j.suitable_count)) := by
  have hcomp : ∀ g j, judgeGroup dayNameOf p g = some j
      → ((fun j : DayJudgment => j.date == d) j = (fun g : String × List Sample => g.1 == d) g) := by
    intro g j hj
    unfold judgeGroup at hj
    by_cases hemp : (((g.2.filter (fun s => inRideHours s.dtHour)).map (mkWindow p)).isEmpty)
    · rw [if_pos hemp] at hj
      cases hj
    · rw [if_neg hemp] at hj
      injection hj with hj
      subst hj
      rfl
  have hsplit := filterMap_filter_comm (judgeGroup dayNameOf p) (fun j => j.date == d)
      (fun g => g.1 == d) (groupByDate items) hcomp
  rw [analyze_eq, hsplit, filter_key_eq _ (groupByDate_keys_nodup items) d,
      lookupKey_groupByDate]
  cases hfil : items.filter (fun s => s.dtDate == d) with
  | nil =>
    constructor
    · intro _
      rfl
    · intro hne
      exact absurd rfl hne
  | cons s rest =>
    constructor
    · intro hempu
      have hE : (((s :: rest).filter (fun s => inRideHours s.dtHour)).map
          (mkWindow p)).isEmpty = true := by
        rw [hempu]
        rfl
      have hnone : judgeGroup dayNameOf p (d, s :: rest) = none := by
        unfold judgeGroup
        rw [if_pos hE]
      show ([(d, s :: rest)].filterMap (judgeGroup dayNameOf p)) = []
      rw [List.filterMap_cons_none hnone]
      rfl
    · intro hne
      have hempf : (((s :: rest).filter
          (fun s => inRideHours s.dtHour)).map (mkWindow p)).isEmpty = false := by
        cases hw : (s :: rest).filter (fun s => inRideHours s.dtHour) with
        | nil => exact absurd hw hne
        | cons a b => rfl
      have hsome : judgeGroup dayNameOf p (d, s :: rest)
          = some { date := d
                   day_name := dayNameOf d
                   windows := ((s :: rest).filter
                     (fun s => inRideHours s.dtHour)).map (mkWindow p)
                   has_suitable_time := decide
                     (((((s :: rest).filter (fun s => inRideHours s.dtHour)).map
                         (mkWindow p)).filter (fun w => w.is_suitable)).length > 0)
                   suitable_count :=
                     ((((s :: rest).filter (fun s => inRideHours s.dtHour)).map
                         (mkWindow p)).filter (fun w => w.is_suitable)).length } := by
        unfold judgeGroup
        rw [if_neg (by rw [hempf]; simp)]
      refine ⟨{ date := d
                day_name := dayNameOf d
                windows := ((s :: rest).filter
                  (fun s => inRideHours s.dtHour)).map (mkWindow p)
                has_suitable_time := decide
                  (((((s :: rest).filter (fun s => inRideHours s.dtHour)).map
                      (mkWindow p)).filter (fun w => w.is_suitable)).length > 0)
                suitable_count :=
                  ((((s :: rest).filter (fun s => inRideHours s.dtHour)).map
                      (mkWindow p)).filter (fun w => w.is_suitable)).length }, ?_, rfl⟩
      show ([(d, s :: rest)].filterMap (judgeGroup dayNameOf p)) = _
      rw [List.filterMap_cons_some hsome]
      rfl

/-- Witness for C6 at a concrete one-sample forecast. -/
theorem day_judgment_per_group_witness :
    ∃ j, (analyze_biking_conditions id (some ⟨some [clearSample]⟩) {}).filter
        (fun j => j.date == "2026-02-08") = [j]
      ∧ j.has_suitable_time = decide (0 < j.suitable_count) :=
  (day_judgment_per_group id [clearSample] {} "2026-02-08").2 (by decide)

/-! ### Ranker invariants -/

theorem check_city_weather_some_pos (getForecast : ℚ → ℚ → Option WeatherData)
    (dist : ℚ → ℚ → ℚ → ℚ → ℚ) (dayNameOf : String → String) (city : CityInfo)
    (home_lat home_lon : ℚ) (r : DestResult)
    (h : check_city_weather getForecast dist dayNameOf city home_lat home_lon = some r) :
    0 < r.suitable_days := by
  cases hgf : getForecast city.lat city.lon with
  | none => simp [check_city_weather, hgf] at h
  | some wd =>
    cases hl : wd.list? with
    | none => simp [check_city_weather, hgf, hl] at h
    | some items =>
      simp only [check_city_weather, hgf, hl] at h
      by_cases hc : ((items.foldl (updateDailyBest dayNameOf) []).filter
          (fun g => g.2.has_suitable)).length > 0
      · rw [if_pos hc] at h
        injection h with h
        subst h
        exact hc
      · rw [if_neg hc] at h
        cases h

theorem pairwise_leDistance_mergeSort (xs : List DestResult) :
    (xs.mergeSort leDistance).Pairwise
      (fun a b => a.distance_miles ≤ b.distance_miles) := by
  have hs := @List.sorted_mergeSort DestResult leDistance
      (fun a b c hab hbc => by
        simp only [leDistance, decide_eq_true_eq] at *
        exact le_trans hab hbc)
      (fun a b => by
        simp only [leDistance]
        rcases le_total a.distance_miles b.distance_miles with h | h <;> simp [h])
      xs
  exact hs.imp (fun h => of_decide_eq_true h)

/-- Claim C3: each tier the Ranker returns has no candidate with a zero
suitable count, at most 3 entries, and is non-decreasing in
`distance_miles`. -/
theorem ranker_invariants (getForecast : ℚ → ℚ → Option WeatherData)
    (dist : ℚ → ℚ → ℚ → ℚ → ℚ) (dayNameOf : String → String) (home_lat home_lon : ℚ) :
    ((find_travel_destinations getForecast dist dayNameOf home_lat home_lon).drive.length ≤ 3
      ∧ (find_travel_destinations getForecast dist dayNameOf home_lat home_lon).fly.length ≤ 3)
    ∧ ((∀ r ∈ (find_travel_destinations getForecast dist dayNameOf home_lat home_lon).drive,
          0 < r.suitable_days)
      ∧ (∀ r ∈ (find_travel_destinations getForecast dist dayNameOf home_lat home_lon).fly,
          0 < r.suitable_days))
    ∧ ((find_travel_destinations getForecast dist dayNameOf home_lat home_lon).drive.Pairwise
          (fun a b => a.distance_miles ≤ b.distance_miles)
      ∧ (find_travel_destinations getForecast dist dayNameOf home_lat home_lon).fly.Pairwise
          (fun a b => a.distance_miles ≤ b.distance_miles)) := by
  have htier : ∀ cities : List CityInfo,
      let res := ((cities.filterMap
        (fun c => check_city_weather getForecast dist dayNameOf c home_lat home_lon)).mergeSort
          leDistance).take 3
      res.length ≤ 3 ∧ (∀ r ∈ res, 0 < r.suitable_days)
        ∧ res.Pairwise (fun a b => a.distance_miles ≤ b.distance_miles) := by
    intro cities
    refine ⟨List.length_take_le _ _, ?_, ?_⟩
    · intro r hr
      have hr2 : r ∈ (cities.filterMap
          (fun c => check_city_weather getForecast dist dayNameOf c home_lat home_lon)).mergeSort
            leDistance := (List.take_sublist _ _).subset hr
      have hr3 := (List.mergeSort_perm _ leDistance).mem_iff.mp hr2
      obtain ⟨c, -, hcr⟩ := List.mem_filterMap.mp hr3
      exact check_city_weather_some_pos _ _ _ _ _ _ _ hcr
    · exact (pairwise_leDistance_mergeSort _).sublist (List.take_sublist _ _)
  exact ⟨⟨(htier DRIVEABLE_CITIES).1, (htier AIRPORT_CITIES).1⟩,
    ⟨(htier DRIVEABLE_CITIES).2.1, (htier AIRPORT_CITIES).2.1⟩,
    ⟨(htier DRIVEABLE_CITIES).2.2, (htier AIRPORT_CITIES).2.2⟩⟩

/-- Witness for C3 at a provider that returns no data. -/
theorem ranker_invariants_witness :
    (find_travel_destinations (fun _ _ => none) (fun _ _ _ _ => 0) id 0 0).drive.length ≤ 3
    ∧ (find_travel_destinations (fun _ _ => none) (fun _ _ _ _ => 0) id 0 0).fly.length ≤ 3 :=
  (ranker_invariants (fun _ _ => none) (fun _ _ _ _ => 0) id 0 0).1

/-! ### Content of `check_city_weather`'s `daily_best` dict -/

/-- The entry created for a date's first retained sample. -/
def dailyBestInit (dayNameOf : String → String) (s : Sample) : DailyBest :=
  { date := s.dtDate
    day_name := dayNameOf s.dtDate
    best_temp := s.feels_like
    has_suitable := citySuitable s }

/-- The update applied for a later retained sample of the same date. -/
def dailyBestUpd (b : DailyBest) (s : Sample) : DailyBest :=
  { b with
    best_temp := if s.feels_like > b.best_temp then s.feels_like else b.best_temp
    has_suitable := b.has_suitable || citySuitable s }

theorem foldl_updateDailyBest (dayNameOf : String → String) (items : List Sample)
    (acc : List (String × DailyBest)) :
    items.foldl (updateDailyBest dayNameOf) acc
      = (items.filter (fun s => inRideHours s.dtHour)).foldl
          (upsert (fun s => s.dtDate) (dailyBestInit dayNameOf) dailyBestUpd) acc := by
  induction items generalizing acc with
  | nil => rfl
  | cons s items ih =>
    rw [List.foldl_cons, List.filter_cons]
    cases h : inRideHours s.dtHour
    · rw [if_neg (by simp)]
      have hskip : updateDailyBest dayNameOf acc s = acc := by
        unfold updateDailyBest
        rw [if_pos (by rw [h]; rfl)]
      rw [hskip, ih]
    · rw [if_pos rfl, List.foldl_cons]
      have hstep : updateDailyBest dayNameOf acc s
          = upsert (fun s => s.dtDate) (dailyBestInit dayNameOf) dailyBestUpd acc s := by
        unfold updateDailyBest
        rw [if_neg (by rw [h]; simp)]
        rfl
      rw [hstep, ih]

theorem absorbBest_foldl (dayNameOf : String → String) (b : DailyBest) (ss : List Sample) :
    ss.foldl (absorb (dailyBestInit dayNameOf) dailyBestUpd) (some b)
      = some { date := b.date
               day_name := b.day_name
               best_temp := ss.foldl
                 (fun t u => if u.feels_like > t then u.feels_like else t) b.best_temp
               has_suitable := b.has_suitable || ss.any citySuitable } := by
  induction ss generalizing b with
  | nil => simp
  | cons s ss ih =>
    rw [List.foldl_cons]
    show ss.foldl _ (some (dailyBestUpd b s)) = _
    rw [ih, List.foldl_cons, List.any_cons, ← Bool.or_assoc]
    rfl

theorem absorbBest_none (dayNameOf : String → String) (ss : List Sample) :
    ss.foldl (absorb (dailyBestInit dayNameOf) dailyBestUpd) none
      = match ss with
        | [] => none
        | s :: rest => some { date := s.dtDate
                              day_name := dayNameOf s.dtDate
                              best_temp := rest.foldl
                                (fun t u => if u.feels_like > t then u.feels_like else t)
                                  s.feels_like
                              has_suitable := citySuitable s || rest.any citySuitable } := by
  cases ss with
  | nil => rfl
  | cons s rest =>
    rw [List.foldl_cons]
    show rest.foldl _ (some (dailyBestInit dayNameOf s)) = _
    rw [absorbBest_foldl]
    rfl

/-- The closed form of a `daily_best` entry for one date. -/
def cityDaySummary (dayNameOf : String → String) (items : List Sample) (d : String) :
    DailyBest :=
  match (items.filter (fun s => inRideHours s.dtHour)).filter (fun s => s.dtDate == d) with
  | [] => { date := d, day_name := dayNameOf d, best_temp := 0, has_suitable := false }
  | s :: rest => { date := s.dtDate
                   day_name := dayNameOf s.dtDate
                   best_temp := rest.foldl
                     (fun t u => if u.feels_like > t then u.feels_like else t) s.feels_like
                   has_suitable := citySuitable s || rest.any citySuitable }

theorem lookupKey_dailyBest (dayNameOf : String → String) (items : List Sample) (d : String) :
    lookupKey (items.foldl (updateDailyBest dayNameOf) []) d
      = match (items.filter (fun s => inRideHours s.dtHour)).filter
          (fun s => s.dtDate == d) with
        | [] => none
        | _ :: _ => some (cityDaySummary dayNameOf items d) := by
  rw [foldl_updateDailyBest,
      lookupKey_foldl_upsert (fun s => s.dtDate) (dailyBestInit dayNameOf) dailyBestUpd,
      show lookupKey ([] : List (String × DailyBest)) d = none from rfl]
  have h := absorbBest_none dayNameOf
      ((items.filter (fun s => inRideHours s.dtHour)).filter (fun s => s.dtDate == d))
  cases hfil : (items.filter (fun s => inRideHours s.dtHour)).filter
      (fun s => s.dtDate == d) with
  | nil =>
    rw [hfil] at h
    exact h
  | cons s rest =>
    rw [hfil] at h
    rw [h]
    unfold cityDaySummary
    rw [hfil]

theorem dailyBest_keys (dayNameOf : String → String) (items : List Sample) :
    ((items.foldl (updateDailyBest dayNameOf) []).map Prod.fst)
      = dedupKeys (fun s => s.dtDate) (items.filter (fun s => inRideHours s.dtHour)) [] := by
  rw [foldl_updateDailyBest]
  exact keys_foldl_upsert _ _ _ _ []

theorem dailyBest_keys_nodup (dayNameOf : String → String) (items : List Sample) :
    ((items.foldl (updateDailyBest dayNameOf) []).map Prod.fst).Nodup := by
  rw [dailyBest_keys]
  exact nodup_dedupKeys _ _ _ List.nodup_nil

theorem dailyBest_entries (dayNameOf : String → String) (items : List Sample) :
    ∀ g ∈ items.foldl (updateDailyBest dayNameOf) [],
      g.2 = cityDaySummary dayNameOf items g.1 := by
  rintro ⟨d, b⟩ hg
  have hl := (lookupKey_mem _ (dailyBest_keys_nodup dayNameOf items) d b).mp hg
  rw [lookupKey_dailyBest] at hl
  cases hfil : (items.filter (fun s => inRideHours s.dtHour)).filter
      (fun s => s.dtDate == d) with
  | nil =>
    rw [hfil] at hl
    cases hl
  | cons s rest =>
    rw [hfil] at hl
    injection hl with hl
    exact hl.symm

theorem summary_has (dayNameOf : String → String) (items : List Sample) (d : String) :
    (cityDaySummary dayNameOf items d).has_suitable
      = ((items.filter (fun s => inRideHours s.dtHour)).filter
          (fun s => s.dtDate == d)).any citySuitable := by
  unfold cityDaySummary
  cases hfil : (items.filter (fun s => inRideHours s.dtHour)).filter
      (fun s => s.dtDate == d) <;> rfl

theorem foldl_best_eq_max (l : List Sample) (a : ℚ) :
    l.foldl (fun t u => if u.feels_like > t then u.feels_like else t) a
      = (l.map (fun s => s.feels_like)).foldl max a := by
  induction l generalizing a with
  | nil => rfl
  | cons s l ih =>
    rw [List.foldl_cons, List.map_cons, List.foldl_cons, ih]
    congr 1
    rcases le_or_lt s.feels_like a with h | h
    · rw [if_neg (not_lt.mpr h), max_eq_left h]
    · rw [if_pos h, max_eq_right (le_of_lt h)]

theorem summary_best (dayNameOf : String → String) (items : List Sample) (d : String)
    (h : (items.filter (fun s => inRideHours s.dtHour)).filter
      (fun s => s.dtDate == d) ≠ []) :
    (cityDaySummary dayNameOf items d).best_temp
      = pyMax (((items.filter (fun s => inRideHours s.dtHour)).filter
          (fun s => s.dtDate == d)).map (fun s => s.feels_like)) := by
  unfold cityDaySummary
  cases hfil : (items.filter (fun s => inRideHours s.dtHour)).filter
      (fun s => s.dtDate == d) with
  | nil => exact absurd hfil h
  | cons s rest =>
    show rest.foldl _ s.feels_like = pyMax ((s :: rest).map (fun s => s.feels_like))
    rw [foldl_best_eq_max]
    rfl

/-! ### Counting helpers -/

theorem decide_length_filter_pos {α : Type} (c : α → Bool) (m : List α) :
    decide (0 < (m.filter c).length) = m.any c := by
  cases h : m.any c
  · rw [List.any_eq_false] at h
    rw [List.filter_eq_nil_iff.mpr h]
    rfl
  · obtain ⟨a, ha, hc⟩ := List.any_eq_true.mp h
    have hmem : a ∈ m.filter c := List.mem_filter.mpr ⟨ha, hc⟩
    cases hf : m.filter c with
    | nil =>
      rw [hf] at hmem
      cases hmem
    | cons x xs => simp

theorem any_congr_mem {α : Type} (l : List α) (p q : α → Bool)
    (h : ∀ a ∈ l, p a = q a) : l.any p = l.any q := by
  induction l with
  | nil => rfl
  | cons a l ih =>
    rw [List.any_cons, List.any_cons, h a (List.mem_cons_self _ _),
        ih (fun a ha => h a (List.mem_cons_of_mem _ ha))]

theorem length_filterMap_all_some {α γ : Type} (f : α → Option γ) (l : List α)
    (h : ∀ a ∈ l, (f a).isSome) : (l.filterMap f).length = l.length := by
  induction l with
  | nil => rfl
  | cons a l ih =>
    obtain ⟨b, hb⟩ := Option.isSome_iff_exists.mp (h a (List.mem_cons_self _ _))
    rw [List.filterMap_cons_some hb, List.length_cons, List.length_cons,
        ih (fun a ha => h a (List.mem_cons_of_mem _ ha))]

theorem length_filter_snd {β : Type} (acc : List (String × β)) (P : β → Bool)
    (h : (acc.map Prod.fst).Nodup) (f : String → β) (hf : ∀ g ∈ acc, g.2 = f g.1) :
    (acc.filter (fun g => P g.2)).length
      = ((acc.map Prod.fst).filter (fun d => P (f d))).length := by
  conv_lhs => rw [assoc_eq_map_keys acc h f hf]
  rw [List.filter_map, List.length_map]
  rfl

theorem length_filter_eq_of_nodup (ks1 ks2 : List String) (D : String → Bool)
    (h1 : ks1.Nodup) (h2 : ks2.Nodup)
    (hm1 : ∀ d, D d = true → d ∈ ks1) (hm2 : ∀ d, D d = true → d ∈ ks2) :
    (ks1.filter D).length = (ks2.filter D).length := by
  have hperm : List.Perm (ks1.filter D) (ks2.filter D) := by
    apply List.perm_of_nodup_nodup_toFinset_eq (List.Nodup.filter D h1) (List.Nodup.filter D h2)
    ext x
    simp only [List.mem_toFinset, List.mem_filter]
    constructor
    · rintro ⟨-, hD⟩
      exact ⟨hm2 x hD, hD⟩
    · rintro ⟨-, hD⟩
      exact ⟨hm1 x hD, hD⟩
  exact hperm.length_eq

/-! ### The candidate check against the classifier with the fixed profile -/

/-- The profile values `check_city_weather` effectively hardcodes:
`CONFIG`'s 33/45 thresholds and an unconditional snow veto. -/
def defaultProfile : Profile :=
  { min_temp_no_precip := 33, min_temp_with_precip := 45, ride_in_snow := false }

/-- On a sample without raw `'rain'`/`'snow'` keys, the per-sample rule of
`check_city_weather` agrees with the classifier's rule under
`defaultProfile`. -/
theorem citySuitable_eq_default_window (s : Sample)
    (hr : s.hasRainKey = false) (hs : s.hasSnowKey = false) :
    (mkWindow defaultProfile s).is_suitable = citySuitable s := by
  simp only [mkWindow, citySuitable, precipFlags, defaultProfile,
    CONFIG_MIN_TEMP_WITH_PRECIP, CONFIG_MIN_TEMP_NO_PRECIP, hr, hs]
  cases h1 : strIn "snow" (weatherMain s) <;>
    cases h2 : strIn "rain" (weatherMain s) <;>
      cases h3 : strIn "drizzle" (weatherMain s) <;>
        simp [h1, h2, h3]

theorem has_suitable_time_eq (p : Profile) (l : List Sample) :
    decide ((((l.filter (fun s => inRideHours s.dtHour)).map (mkWindow p)).filter
        (fun w => w.is_suitable)).length > 0)
      = l.any (fun s => inRideHours s.dtHour && (mkWindow p s).is_suitable) := by
  simp only [gt_iff_lt]
  rw [List.filter_map, List.length_map, decide_length_filter_pos, List.any_filter]
  rfl

/-- The per-date suitability test that `check_city_weather` effectively
computes: some in-window sample of that date passes the fixed rule. -/
def cityHasSuitableOn (items : List Sample) (d : String) : Bool :=
  items.any (fun s => inRideHours s.dtHour && (s.dtDate == d && citySuitable s))

/-- The count of suitable days seen by `check_city_weather` equals the
count of suitable Day Judgments of the section-4.1 classifier run with
`defaultProfile`, provided no sample carries a raw `'rain'`/`'snow'` key. -/
theorem suitable_days_count_eq (dayNameOf : String → String) (items : List Sample)
    (hkeys : ∀ s ∈ items, s.hasRainKey = false ∧ s.hasSnowKey = false) :
    ((items.foldl (updateDailyBest dayNameOf) []).filter (fun g => g.2.has_suitable)).length
      = ((analyze_biking_conditions dayNameOf (some ⟨some items⟩) defaultProfile).filter
          (fun j => j.has_suitable_time)).length := by
  have hL : ((items.foldl (updateDailyBest dayNameOf) []).filter
      (fun g => g.2.has_suitable)).length
      = ((dedupKeys (fun s => s.dtDate) (items.filter (fun s => inRideHours s.dtHour))
          []).filter (cityHasSuitableOn items)).length := by
    rw [length_filter_snd _ (fun b => b.has_suitable)
        (dailyBest_keys_nodup dayNameOf items) (cityDaySummary dayNameOf items)
        (dailyBest_entries dayNameOf items), dailyBest_keys]
    congr 1
    apply List.filter_congr
    intro d _
    rw [summary_has, List.any_filter, List.any_filter]
    rfl
  have hR : ((analyze_biking_conditions dayNameOf (some ⟨some items⟩)
      defaultProfile).filter (fun j => j.has_suitable_time)).length
      = ((dedupKeys (fun s => s.dtDate) items []).filter
          (cityHasSuitableOn items)).length := by
    rw [analyze_eq]
    have hcomp : ∀ g j, judgeGroup dayNameOf defaultProfile g = some j →
        ((fun j : DayJudgment => j.has_suitable_time) j
          = (fun g : String × List Sample => g.2.any
              (fun s => inRideHours s.dtHour
                && (mkWindow defaultProfile s).is_suitable)) g) := by
      intro g j hj
      unfold judgeGroup at hj
      by_cases hemp : (((g.2.filter (fun s => inRideHours s.dtHour)).map
          (mkWindow defaultProfile)).isEmpty)
      · rw [if_pos hemp] at hj
        cases hj
      · rw [if_neg hemp] at hj
        injection hj with hj
        subst hj
        exact has_suitable_time_eq defaultProfile g.2
    rw [filterMap_filter_comm (judgeGroup dayNameOf defaultProfile) _ _
        (groupByDate items) hcomp]
    rw [length_filterMap_all_some _ _ ?hall]
    case hall =>
      intro g hg
      have hc := (List.mem_filter.mp hg).2
      have hany : g.2.any (fun s => inRideHours s.dtHour) = true := by
        obtain ⟨s, hs, hcs⟩ := List.any_eq_true.mp hc
        exact List.any_eq_true.mpr ⟨s, hs, (Bool.and_eq_true_iff.mp hcs).1⟩
      unfold judgeGroup
      rw [if_neg (by rw [windows_isEmpty_eq, hany]; simp)]
      rfl
    have hcontent : ∀ g ∈ groupByDate items,
        ((fun g : String × List Sample => g.2.any
          (fun s => inRideHours s.dtHour && (mkWindow defaultProfile s).is_suitable)) g)
          = ((fun g : String × List Sample => cityHasSuitableOn items g.1) g) := by
      rintro ⟨d, fs⟩ hg
      obtain ⟨hfs, -⟩ := groupByDate_mem items d fs hg
      subst hfs
      show (List.filter (fun s => s.dtDate == d) items).any _ = _
      rw [List.any_filter]
      unfold cityHasSuitableOn
      apply any_congr_mem
      intro s hs
      rw [citySuitable_eq_default_window s (hkeys s hs).1 (hkeys s hs).2,
          Bool.and_left_comm]
    rw [List.filter_congr hcontent, ← groupByDate_keys, List.filter_map,
        List.length_map]
    rfl
  rw [hL, hR]
  refine length_filter_eq_of_nodup _ _ (cityHasSuitableOn items)
    (nodup_dedupKeys _ _ _ List.nodup_nil) (nodup_dedupKeys _ _ _ List.nodup_nil)
    ?_ ?_
  · intro d hd
    obtain ⟨s, hs, hb⟩ := List.any_eq_true.mp hd
    obtain ⟨hin, hrest⟩ := Bool.and_eq_true_iff.mp hb
    obtain ⟨hdate, -⟩ := Bool.and_eq_true_iff.mp hrest
    exact (mem_dedupKeys _ _ _ _).mpr
      (Or.inr ⟨s, List.mem_filter.mpr ⟨hs, hin⟩, beq_iff_eq.mp hdate⟩)
  · intro d hd
    obtain ⟨s, hs, hb⟩ := List.any_eq_true.mp hd
    obtain ⟨-, hrest⟩ := Bool.and_eq_true_iff.mp hb
    obtain ⟨hdate, -⟩ := Bool.and_eq_true_iff.mp hrest
    exact (mem_dedupKeys _ _ _ _).mpr (Or.inr ⟨s, hs, beq_iff_eq.mp hdate⟩)

/-- One-sample snow forecast used as a concrete candidate forecast. -/
def snowForecast : Option WeatherData := some ⟨some [snowSample]⟩

/-- One-sample clear forecast used as a concrete candidate forecast. -/
def clearForecast : Option WeatherData := some ⟨some [clearSample]⟩

/-- A concrete candidate city at the origin. -/
def cexCity : CityInfo :=
  { city := "Baltimore", state := "MD", airport := none, lat := 0, lon := 0 }

/-- Counterexample to claim C1: with `allow_snow = true`, the section-4.1
classifier marks the 50-degree snow sample's day suitable (so the home
report counts it), yet `check_city_weather` evaluating the very same
forecast for a candidate returns `none` — the Ranker does not run the
classifier with the subscriber's Preference Profile. -/
theorem ranker_profile_cex :
    ((analyze_biking_conditions id snowForecast
        { min_temp_no_precip := 33, min_temp_with_precip := 45,
          ride_in_snow := true }).map (fun j => j.has_suitable_time)) = [true]
    ∧ check_city_weather (fun _ _ => snowForecast) (fun _ _ _ _ => 0) id cexCity 0 0
        = none := by
  constructor
  · decide
  · decide

/-- Claim C1 (amended): the Ranker evaluates every candidate with the
fixed built-in rule — the CONFIG 33/45 thresholds and an unconditional
snow veto, i.e. `defaultProfile` — never the subscriber's profile.  For a
forecast whose samples carry no raw `'rain'`/`'snow'` keys, the candidate
result exists iff the section-4.1 classifier under `defaultProfile` finds
a suitable day, and `suitable_days` equals that classifier's
suitable-day count. -/
theorem check_matches_default_classifier (getForecast : ℚ → ℚ → Option WeatherData)
    (dist : ℚ → ℚ → ℚ → ℚ → ℚ) (dayNameOf : String → String) (city : CityInfo)
    (home_lat home_lon : ℚ)
    (hkeys : ∀ s ∈ samplesOf (getForecast city.lat city.lon),
      s.hasRainKey = false ∧ s.hasSnowKey = false) :
    (check_city_weather getForecast dist dayNameOf city home_lat home_lon).map
        (fun r => r.suitable_days)
      = (if 0 < ((analyze_biking_conditions dayNameOf (getForecast city.lat city.lon)
            defaultProfile).filter (fun j => j.has_suitable_time)).length
         then some (((analyze_biking_conditions dayNameOf (getForecast city.lat city.lon)
            defaultProfile).filter (fun j => j.has_suitable_time)).length)
         else none) := by
  cases hgf : getForecast city.lat city.lon with
  | none => simp [check_city_weather, hgf, analyze_biking_conditions]
  | some wd =>
    obtain ⟨l⟩ := wd
    cases l with
    | none => simp [check_city_weather, hgf, analyze_biking_conditions]
    | some items =>
      have hkeys2 : ∀ s ∈ items, s.hasRainKey = false ∧ s.hasSnowKey = false := by
        intro s hs
        apply hkeys
        rw [hgf]
        exact hs
      simp only [check_city_weather, hgf, gt_iff_lt]
      rw [suitable_days_count_eq dayNameOf items hkeys2]
      by_cases hpos : 0 < ((analyze_biking_conditions dayNameOf (some ⟨some items⟩)
          defaultProfile).filter (fun j => j.has_suitable_time)).length
      · rw [if_pos hpos, if_pos hpos]
        rfl
      · rw [if_neg hpos, if_neg hpos]
        rfl

/-- Witness for the amended C1 at the concrete snow forecast: the
candidate result is `none` and the default-profile classifier finds no
suitable day either. -/
theorem check_matches_default_classifier_witness :
    (check_city_weather (fun _ _ => snowForecast) (fun _ _ _ _ => 0) id cexCity 0 0).map
        (fun r => r.suitable_days)
      = (if 0 < ((analyze_biking_conditions id snowForecast
            defaultProfile).filter (fun j => j.has_suitable_time)).length
         then some (((analyze_biking_conditions id snowForecast
            defaultProfile).filter (fun j => j.has_suitable_time)).length)
         else none) :=
  check_matches_default_classifier (fun _ _ => snowForecast) (fun _ _ _ _ => 0)
    id cexCity 0 0 (by decide)

/-- Claim C4: when `check_city_weather` reports a result, its `best_temp`
is the maximum — over exactly the day summaries flagged `has_suitable` —
of that day's running best temperature, which is itself the maximum
`feels_like` over all of that day's in-window samples, suitable or not. -/
theorem best_temp_reported (getForecast : ℚ → ℚ → Option WeatherData)
    (dist : ℚ → ℚ → ℚ → ℚ → ℚ) (dayNameOf : String → String) (city : CityInfo)
    (home_lat home_lon : ℚ)
    (h : check_city_weather getForecast dist dayNameOf city home_lat home_lon ≠ none) :
    (check_city_weather getForecast dist dayNameOf city home_lat home_lon).map
        (fun r => r.best_temp)
      = some (pyMax
          (((firstSeenDateOrder ((samplesOf (getForecast city.lat city.lon)).filter
              (fun s => inRideHours s.dtHour))).filter
                (cityHasSuitableOn (samplesOf (getForecast city.lat city.lon)))).map
            (fun d => pyMax ((((samplesOf (getForecast city.lat city.lon)).filter
                (fun s => inRideHours s.dtHour)).filter
                  (fun s => s.dtDate == d)).map (fun s => s.feels_like))))) := by
  cases hgf : getForecast city.lat city.lon with
  | none =>
    exfalso
    apply h
    simp [check_city_weather, hgf]
  | some wd =>
    obtain ⟨l⟩ := wd
    cases l with
    | none =>
      exfalso
      apply h
      simp [check_city_weather, hgf]
    | some items =>
      simp only [check_city_weather, hgf, gt_iff_lt] at h ⊢
      simp only [samplesOf]
      have hpred : ∀ d ∈ dedupKeys (fun s => s.dtDate)
          (items.filter (fun s => inRideHours s.dtHour)) [],
          (cityDaySummary dayNameOf items d).has_suitable = cityHasSuitableOn items d := by
        intro d _
        rw [summary_has, List.any_filter, List.any_filter]
        rfl
      have hlist : ((items.foldl (updateDailyBest dayNameOf) []).filter
          (fun g => g.2.has_suitable)).map (fun g => g.2.best_temp)
          = ((firstSeenDateOrder (items.filter (fun s => inRideHours s.dtHour))).filter
              (cityHasSuitableOn items)).map
            (fun d => pyMax (((items.filter (fun s => inRideHours s.dtHour)).filter
                (fun s => s.dtDate == d)).map (fun s => s.feels_like))) := by
        conv_lhs => rw [assoc_eq_map_keys (items.foldl (updateDailyBest dayNameOf) [])
          (dailyBest_keys_nodup dayNameOf items) (cityDaySummary dayNameOf items)
          (dailyBest_entries dayNameOf items)]
        rw [List.filter_map, List.map_map, dailyBest_keys]
        dsimp only [Function.comp_def]
        rw [List.filter_congr hpred]
        apply List.map_congr_left
        intro d hd
        have hdk := (List.mem_filter.mp hd).1
        obtain ⟨s, hs, hsd⟩ :=
          ((mem_dedupKeys _ _ _ _).mp hdk).resolve_left (List.not_mem_nil d)
        have hne : (items.filter (fun s => inRideHours s.dtHour)).filter
            (fun s => s.dtDate == d) ≠ [] := by
          intro hnil
          have hmem : s ∈ (items.filter (fun s => inRideHours s.dtHour)).filter
              (fun s => s.dtDate == d) :=
            List.mem_filter.mpr ⟨hs, beq_iff_eq.mpr hsd⟩
          rw [hnil] at hmem
          cases hmem
        exact summary_best dayNameOf items d hne
      by_cases hpos : 0 < ((items.foldl (updateDailyBest dayNameOf) []).filter
          (fun g => g.2.has_suitable)).length
      · rw [if_pos hpos]
        show some _ = some _
        rw [hlist]
      · rw [if_neg hpos] at h
        exact absurd rfl h

/-- Witness for C4 at the concrete clear forecast. -/
theorem best_temp_reported_witness :
    (check_city_weather (fun _ _ => clearForecast) (fun _ _ _ _ => 0) id cexCity 0 0).map
        (fun r => r.best_temp)
      = some (pyMax
          (((firstSeenDateOrder ((samplesOf clearForecast).filter
              (fun s => inRideHours s.dtHour))).filter
                (cityHasSuitableOn (samplesOf clearForecast))).map
            (fun d => pyMax ((((samplesOf clearForecast).filter
                (fun s => inRideHours s.dtHour)).filter
                  (fun s => s.dtDate == d)).map (fun s => s.feels_like))))) :=
  best_temp_reported (fun _ _ => clearForecast) (fun _ _ _ _ => 0) id cexCity 0 0
    (by decide)

end BikeWeather
